import Mathlib

/-!
Verification of the work-order signing and verification core
(`examples/common/python/utility/signature.py`, class `ClientSignature`).

Modelling conventions:
* Python byte strings are modelled as Lean `String` values; `bytes.decode`
  and `str.encode` are the two directions of an isomorphism, and every byte
  string handled by this module is obtained by UTF-8 encoding a string, so
  concatenation of byte strings is modelled by `String` append.
* The external cryptographic provider (`crypto.crypto`, `utility.utility`)
  is out of scope for the core; spec section 2 treats it as a capability
  interface.  It is modelled by a structure of abstract functions
  (`CryptoP`) plus explicit function parameters for key-dependent
  operations; all theorems quantify over these primitives.
* A Python `dict` field that may be absent is an `Option`; code that would
  raise `KeyError` (or any other uncaught exception) on a missing field is
  modelled as returning `none` / `GenResult.crashed`.
* `list.sort(key=lambda x: x[\x27index\x27])` is a stable ascending sort by the
  integer key; it is modelled by `List.insertionSort` with the relation
  `idxLe`, which is extensionally the same stable sort.
-/

namespace TCF

/-- Abstract external cryptographic provider: message hash
(`crypto.compute_message_hash`), base64 encoding
(`crypto.byte_array_to_base64`), symmetric encryption
(`utility.encrypt_data(data, key, iv)`), and hex encoding of a byte string
(the inline `format(i, \x2702x\x27)` joins). -/
structure CryptoP where
  hash : String → String
  b64 : String → String
  encrypt : String → String → String → String
  hex : String → String

/-- One element of `inData` / `outData` as read by `signature.py`; every
field the code may find absent is an `Option`. -/
structure DataItem where
  index : Option Int := none
  dataHash : Option String := none
  data : Option String := none
  encryptedDataEncryptionKey : Option String := none
  iv : Option String := none
deriving DecidableEq

/-- The `params` / `result` dictionary of a work-order payload, holding
every key `signature.py` reads or writes. -/
structure Params where
  requesterNonce : Option String := none
  workOrderId : Option String := none
  workerId : Option String := none
  workloadId : Option String := none
  requesterId : Option String := none
  inData : Option (List DataItem) := none
  outData : Option (List DataItem) := none
  code : Option Int := none
  workerNonce : Option String := none
  workerSignature : Option String := none
  sessionKeyIv : Option String := none
  encryptedRequestHash : Option String := none
  requesterSignature : Option String := none
  encryptedSessionKey : Option String := none
  verifyingKey : Option String := none
deriving DecidableEq

/-- A work-order submit request payload: a JSON-RPC envelope whose `params`
key may be absent (checked by `__payload_json_check`). -/
structure Request where
  params : Option Params
deriving DecidableEq

/-- A work-order response payload: may carry an `error` key and a `result`
key (`verify_signature` reads both). -/
structure Response where
  error : Option String := none
  result : Option Params := none
deriving DecidableEq

/-- Worker descriptor fields read by `signature.py`
(`worker.worker_details`). -/
structure WorkerDetails where
  hashing_algorithm : String
  signing_algorithm : String
  worker_encryption_key : String
  worker_typedata_verification_key : String
deriving DecidableEq

/-- Modelled from the spec: `SignatureStatus` is imported from
`error_code.error_status`, which is not under `src/`; the spec describes it
as a closed enumeration of the five verification outcomes. -/
inductive SignatureStatus where
  | ERROR_RESPONSE
  | INVALID_VERIFICATION_KEY
  | PASSED
  | FAILED
  | INVALID_SIGNATURE_FORMAT
deriving DecidableEq

/-- `self.param_pool` from `ClientSignature.__init__`. -/
def param_pool : List String :=
  ["requesterNonce", "workOrderId", "workerId", "requesterId", "inData"]

/-- Membership test `param in data_params` for the names in `param_pool`. -/
def paramPresent (p : Params) : String → Bool
  | "requesterNonce" => p.requesterNonce.isSome
  | "workOrderId" => p.workOrderId.isSome
  | "workerId" => p.workerId.isSome
  | "requesterId" => p.requesterId.isSome
  | "inData" => p.inData.isSome
  | _ => false

/-- The per-item test of `__payload_json_check`:
`\x27data\x27 not in obj or not obj["data"] or \x27index\x27 not in obj` negated. -/
def itemOk (it : DataItem) : Bool :=
  it.data.isSome && decide (it.data.getD "" ≠ "") && it.index.isSome

/-- `ClientSignature.__payload_json_check` (signature.py lines 52-79).
Returns the boolean result paired with the list of logged diagnostics: the
name of each missing mandatory parameter, then one `"inData"` entry per
defective data item. -/
def payload_json_check (req : Request) : Bool × List String :=
  match req.params with
  | none => (false, ["params"])
  | some p =>
    let missing := param_pool.filter (fun n => !(paramPresent p n))
    if missing.isEmpty then
      let items := p.inData.getD []
      let bad := items.filter (fun it => !(itemOk it))
      (bad.isEmpty, missing ++ bad.map (fun _ => "inData"))
    else
      (false, missing)

/-- The sort key relation of `indata_objects.sort(key=lambda x: x[\x27index\x27])`. -/
def idxLe (a b : DataItem) : Prop := a.index.getD 0 ≤ b.index.getD 0

instance : DecidableRel idxLe := fun a b => Int.decLe _ _

instance : IsTotal DataItem idxLe := ⟨fun a b => Int.le_total _ _⟩

instance : IsTrans DataItem idxLe := ⟨fun _ _ _ h h2 => Int.le_trans h h2⟩

/-- `items.sort(key=lambda x: x[\x27index\x27])`: a stable ascending sort by the
`index` key; raises `KeyError` (modelled as `none`) when an item lacks
`index`. -/
def sortByIndex (items : List DataItem) : Option (List DataItem) :=
  if items.all (fun it => it.index.isSome) then
    some (List.insertionSort idxLe items)
  else
    none

/-- The body of the per-item loop of
`ClientSignature.__encrypt_workorder_indata` (signature.py lines 105-120):
selects the key by the `encryptedDataEncryptionKey` sentinel and replaces
`data` with a base64 byte string. -/
def encrypt_item (C : CryptoP) (session_key session_iv data_key data_iv : String)
    (item : DataItem) : Option DataItem :=
  match item.data, item.encryptedDataEncryptionKey with
  | some d, some e_key =>
    if e_key = "" ∨ e_key = "null" then
      some { item with data := some (C.b64 (C.encrypt d session_key session_iv)) }
    else if e_key = "-" then
      some { item with data := some (C.b64 d) }
    else
      some { item with data := some (C.b64 (C.encrypt d data_key data_iv)) }
  | _, _ => none

/-- The encryption loop of `__encrypt_workorder_indata` over the sorted
items, stopping at the first missing key (`KeyError`). -/
def encrypt_items (C : CryptoP) (session_key session_iv data_key data_iv : String) :
    List DataItem → Option (List DataItem)
  | [] => some []
  | it :: rest => do
    let r ← encrypt_item C session_key session_iv data_key data_iv it
    let rs ← encrypt_items C session_key session_iv data_key data_iv rest
    pure (r :: rs)

/-- `ClientSignature.__encrypt_workorder_indata` (signature.py lines
82-122): sorts `inData` by `index` in place, then encrypts each item. -/
def encrypt_workorder_indata (C : CryptoP) (p : Params)
    (session_key session_iv data_key data_iv : String) : Option Params := do
  let items ← p.inData
  let sorted ← sortByIndex items
  let enc ← encrypt_items C session_key session_iv data_key data_iv sorted
  pure { p with inData := some enc }

/-- `ClientSignature.__calculate_hash_on_concatenated_string` (signature.py
lines 125-147): base64 of the hash of
`nonce_hash + workOrderId + workerId + workloadId + requesterId`, the
workload id defaulting to the empty string. -/
def calculate_hash_on_concatenated_string (C : CryptoP) (p : Params)
    (nonce_hash : String) : Option String := do
  let workorder_id ← p.workOrderId
  let worker_id ← p.workerId
  let workload_id := p.workloadId.getD ""
  let requester_id ← p.requesterId
  pure (C.b64 (C.hash (nonce_hash ++ workorder_id ++ worker_id ++ workload_id ++ requester_id)))

/-- The per-item concatenation of `__calculate_datahash`:
`dataHash (empty if absent) + data + encryptedDataEncryptionKey + iv`. -/
def item_concat (it : DataItem) : Option String := do
  let d ← it.data
  let e_key ← it.encryptedDataEncryptionKey
  let iv ← it.iv
  pure (it.dataHash.getD "" ++ d ++ e_key ++ iv)

/-- `ClientSignature.__calculate_datahash` (signature.py lines 150-171):
hashes each item separately and appends each base64 digest to the running
string, stopping at the first missing key (`KeyError`). -/
def calculate_datahash (C : CryptoP) : List DataItem → Option String
  | [] => some ""
  | it :: rest => do
    let c ← item_concat it
    let restS ← calculate_datahash C rest
    pure (C.b64 (C.hash c) ++ restS)

/-- Modelled from the spec, section 4.3: `item_hash(items)` is the
concatenation of the per-item base64 digests of
`dataHash (empty if absent) + data + encryptedDataEncryptionKey + iv`,
each item hashed separately. -/
def spec_item_hash (C : CryptoP) : List DataItem → String
  | [] => ""
  | it :: rest =>
    C.b64 (C.hash (it.dataHash.getD "" ++ it.data.getD "" ++
      it.encryptedDataEncryptionKey.getD "" ++ it.iv.getD "")) ++ spec_item_hash C rest

/-- Modelled from the spec, section 4.3: `header_hash(payload,
nonce_digest)` hashes the concatenation of the nonce digest, work order id,
worker id, workload id (empty if absent) and requester id. -/
def spec_header_hash (C : CryptoP)
    (nonce_digest workorder_id worker_id workload_id requester_id : String) : String :=
  C.b64 (C.hash (nonce_digest ++ workorder_id ++ worker_id ++ workload_id ++ requester_id))

/-- Outcome of `generate_client_signature`: `nullRes msg` models
`return None` after logging `msg`, `crashed` models an uncaught exception
(`KeyError` on a missing dictionary key), `ok req final_hash` models
returning the signed serialized request (the digest that was signed is
carried alongside for the statements below). -/
inductive GenResult where
  | nullRes (msg : String)
  | crashed
  | ok (req : Request) (final_hash : String)
deriving DecidableEq

/-- The body of `generate_client_signature` after the three abort checks
(signature.py lines 222-264): session IV injection, in-place encryption of
`inData`, nonce hashing, the three hash strings, the final digest, and the
fields written back into the payload.  `signMsg` abstracts
`private_key.SignMessage`, `public_key` the serialized
`GetPublicKey()`. -/
def sign_core (C : CryptoP) (p0 : Params) (signMsg : String → String)
    (public_key session_key session_iv encrypted_session_key nonce data_key data_iv : String) :
    Option (Params × String) := do
  let p1 := { p0 with sessionKeyIv := some (C.hex session_iv) }
  let p2 ← encrypt_workorder_indata C p1 session_key session_iv data_key data_iv
  let nonce_hash := C.b64 (C.hash nonce)
  let hash_string_1 ← calculate_hash_on_concatenated_string C p2 nonce_hash
  let hash_string_2 ← calculate_datahash C (p2.inData.getD [])
  let step3 ← (match p2.outData with
    | none => some (p2, "")
    | some outs => do
        let souts ← sortByIndex outs
        let hash_string_3 ← calculate_datahash C souts
        pure ({ p2 with outData := some souts }, hash_string_3))
  let final_hash := C.hash (hash_string_1 ++ hash_string_2 ++ step3.2)
  pure ({ step3.1 with
            encryptedRequestHash := some (C.hex (C.encrypt final_hash session_key session_iv)),
            requesterSignature := some (C.b64 (signMsg final_hash)),
            encryptedSessionKey := some (C.hex encrypted_session_key),
            verifyingKey := some public_key,
            requesterNonce := some (C.b64 (C.hash nonce)) },
        final_hash)

/-- Log message of the validation abort in `generate_client_signature`. -/
def msg_validation_failed : String := "ERROR: Signing the request failed"

/-- Log message of the hashing-algorithm abort. -/
def msg_bad_hashing_algorithm : String :=
  "ERROR: Signing the request failed. Hashing algorithm is not supported"

/-- Log message of the signing-algorithm abort. -/
def msg_bad_signing_algorithm : String :=
  "ERROR: Signing the request failed. Signing algorithm is not supported"

/-- `ClientSignature.generate_client_signature` (signature.py lines
188-264).  `tcs_hashing_algorithm` / `tcs_signing_algorithm` are the
locally configured algorithms from `tcs_config.toml`; `nonce` is the fresh
16-byte random string drawn from `crypto.random_bit_string`. -/
def generate_client_signature (C : CryptoP)
    (tcs_hashing_algorithm tcs_signing_algorithm : String)
    (req : Request) (w : WorkerDetails) (signMsg : String → String)
    (public_key session_key session_iv encrypted_session_key nonce data_key data_iv : String) :
    GenResult :=
  if (payload_json_check req).1 = false then
    .nullRes msg_validation_failed
  else if tcs_hashing_algorithm ≠ w.hashing_algorithm then
    .nullRes msg_bad_hashing_algorithm
  else if tcs_signing_algorithm ≠ w.signing_algorithm then
    .nullRes msg_bad_signing_algorithm
  else
    match req.params with
    | none => .crashed
    | some p0 =>
      match sign_core C p0 signMsg public_key session_key session_iv
          encrypted_session_key nonce data_key data_iv with
      | none => .crashed
      | some (p4, final_hash) => .ok ⟨some p4⟩ final_hash

/-- `code_is_error`: the test
`\x27code\x27 in input_json_params.keys() and input_json_params[\x27code\x27] < 0`. -/
def code_is_error (p : Params) : Bool :=
  match p.code with
  | some c => decide (c < 0)
  | none => false

/-- The digest recomputation of `verify_signature` (signature.py lines
295-304): header hash over the result fields with `workerNonce` used
directly as the nonce digest, item hash over `outData` sorted by `index`,
and the final hash of the concatenation. -/
def response_digest (C : CryptoP) (p : Params) : Option String := do
  let nonce ← p.workerNonce
  let hash_string_1 ← calculate_hash_on_concatenated_string C p nonce
  let outs ← p.outData
  let souts ← sortByIndex outs
  let hash_string_2 ← calculate_datahash C souts
  pure (C.hash (hash_string_1 ++ hash_string_2))

/-- `ClientSignature.verify_signature` (signature.py lines 267-322).
`keyParse` abstracts the `crypto.SIG_PublicKey` constructor (`none` models
the exception it may raise); `verifyPrim key digest sig` abstracts
`VerifySignature` on the key built from `key`, returning the primitive
integer outcome.  A `none` result models an uncaught exception. -/
def verify_signature (C : CryptoP)
    (tcs_hashing_algorithm tcs_signing_algorithm : String)
    (keyParse : String → Option Unit) (verifyPrim : String → String → String → Int)
    (resp : Response) (w : WorkerDetails) : Option SignatureStatus :=
  if tcs_hashing_algorithm ≠ w.hashing_algorithm then
    some .ERROR_RESPONSE
  else if tcs_signing_algorithm ≠ w.signing_algorithm then
    some .ERROR_RESPONSE
  else if resp.error.isSome then
    some .ERROR_RESPONSE
  else
    match resp.result with
    | none => none
    | some p =>
      if code_is_error p then
        some .ERROR_RESPONSE
      else do
        let signature ← p.workerSignature
        let final_hash ← response_digest C p
        match keyParse w.worker_typedata_verification_key with
        | none => pure SignatureStatus.INVALID_VERIFICATION_KEY
        | some _ =>
          let sig_result := verifyPrim w.worker_typedata_verification_key final_hash signature
          if sig_result = 1 then pure SignatureStatus.PASSED
          else if sig_result = 0 then pure SignatureStatus.FAILED
          else pure SignatureStatus.INVALID_SIGNATURE_FORMAT

/-- A concrete instantiation of the abstract provider, used for witnesses
and counterexamples: every primitive tags its argument so distinct inputs
stay distinguishable. -/
def C0 : CryptoP where
  hash := fun s => "H(" ++ s ++ ")"
  b64 := fun s => "B(" ++ s ++ ")"
  encrypt := fun d k iv => "E(" ++ d ++ "." ++ k ++ "." ++ iv ++ ")"
  hex := fun s => "X(" ++ s ++ ")"

/-- The list of sort keys of a list of data items. -/
def indicesOf (l : List DataItem) : List Int := l.map (fun it => it.index.getD 0)

/-- The composite that appears at signature.py lines 99-101, 241-243 and
299-301: sort a data list by `index`, then run `__calculate_datahash` on
it. -/
def sorted_datahash (C : CryptoP) (items : List DataItem) : Option String :=
  (sortByIndex items).bind (calculate_datahash C)

/-- The fields of a response `result` object that `verify_signature` reads
past the error checks, all present and well formed. -/
def result_fields_ok (p : Params) : Prop :=
  p.workerNonce.isSome ∧ p.workerSignature.isSome ∧ p.workOrderId.isSome ∧
    p.workerId.isSome ∧ p.requesterId.isSome ∧
    ∃ outs, p.outData = some outs ∧ ∀ it ∈ outs,
      it.index.isSome ∧ it.data.isSome ∧
        it.encryptedDataEncryptionKey.isSome ∧ it.iv.isSome

/-- The per-item fields `generate_client_signature` reads beyond what
`__payload_json_check` validates: `encryptedDataEncryptionKey` and `iv` on
every `inData` item, and all four hashed fields plus `index` on every
`outData` item. -/
def extra_fields_ok (p : Params) : Prop :=
  (∀ it ∈ p.inData.getD [], it.encryptedDataEncryptionKey.isSome ∧ it.iv.isSome) ∧
    ∀ outs, p.outData = some outs → ∀ it ∈ outs,
      it.index.isSome ∧ it.data.isSome ∧
        it.encryptedDataEncryptionKey.isSome ∧ it.iv.isSome

/-- Worker descriptor whose algorithms match the local configuration used
in the concrete witnesses. -/
def w0 : WorkerDetails := ⟨"SHA-256", "SECP256K1", "wek", "wvk"⟩

/-- A data item with `data` and `iv` but no `encryptedDataEncryptionKey`:
it passes validation yet crashes the encryptor. -/
def itemC4 : DataItem := { index := some 0, data := some "x", iv := some "iv0" }

/-- A request that passes `__payload_json_check` although its single
`inData` item lacks `encryptedDataEncryptionKey`. -/
def reqC4 : Request :=
  ⟨some { requesterNonce := some "rn", workOrderId := some "wo", workerId := some "wk",
          requesterId := some "rq", inData := some [itemC4] }⟩

/-- A data item lacking both `encryptedDataEncryptionKey` and `iv`. -/
def itemC10 : DataItem := { index := some 0, data := some "x" }

/-- A data item lacking only `iv`. -/
def itemC10iv : DataItem :=
  { index := some 1, data := some "y", encryptedDataEncryptionKey := some "k" }

/-- A request that passes validation though its item lacks
`encryptedDataEncryptionKey` and `iv`. -/
def reqC10 : Request :=
  ⟨some { requesterNonce := some "rn", workOrderId := some "wo", workerId := some "wk",
          requesterId := some "rq", inData := some [itemC10] }⟩

/-- A fully populated data item lacking nothing. -/
def itemFull : DataItem :=
  { index := some 0, data := some "x", encryptedDataEncryptionKey := some "", iv := some "z" }

/-- Same as `itemFull` but with different payload data and the same
`index`, to exhibit equal-key sort instability. -/
def itemFull2 : DataItem :=
  { index := some 0, data := some "y", encryptedDataEncryptionKey := some "", iv := some "z" }

/-- A fully populated data item with a distinct index. -/
def itemIdx1 : DataItem :=
  { index := some 1, data := some "y", encryptedDataEncryptionKey := some "-", iv := some "z" }

/-- A data item with `encryptedDataEncryptionKey` absent (used against
claim C3). -/
def itemC3 : DataItem := { index := some 0, data := some "x", iv := some "iv0" }

/-- A fully populated request used by the success witnesses. -/
def reqFull : Request :=
  ⟨some { requesterNonce := some "rn", workOrderId := some "wo", workerId := some "wk",
          requesterId := some "rq", inData := some [itemFull],
          outData := some [itemIdx1] }⟩

/-- The result object of a well-formed response used by the witnesses. -/
def pRespFull : Params :=
  { workOrderId := some "wo", workerId := some "wk", requesterId := some "rq",
    workerNonce := some "WN", workerSignature := some "WS",
    outData := some [itemFull] }

/-- A well-formed response used by the witnesses. -/
def respFull : Response := ⟨none, some pRespFull⟩

/-- A response carrying an RPC-level `error` field. -/
def respErr : Response := ⟨some "remote failure", none⟩

/-- A concrete key parser that accepts every key string. -/
def kp0 : String → Option Unit := fun _ => some ()

/-- A concrete verification primitive that always reports success. -/
def vp0 : String → String → String → Int := fun _ _ _ => 1

/-- A concrete signing primitive used by the witnesses. -/
def sgn0 : String → String := fun s => "S(" ++ s ++ ")"

/-- A params object missing `requesterNonce` and `inData`, used by the
validator witness. -/
def pC8w : Params :=
  { workOrderId := some "wo", workerId := some "wk", requesterId := some "rq" }

/-- The request wrapping `pC8w`. -/
def reqC8w : Request := ⟨some pC8w⟩

/-- A response with neither an `error` key nor a `result` key: the
verifier raises `KeyError` on it. -/
def respC6 : Response := ⟨none, none⟩

/-- The result of the concrete signing run used by the claim C1 witness. -/
def genFull : GenResult :=
  generate_client_signature C0 "SHA-256" "SECP256K1" reqFull w0
    (fun s => "S(" ++ s ++ ")") "pub" "sk" "siv" "esk" "NONCE" "dk" "div"

/-- The request produced by `genFull` (dummy on the non-ok branches). -/
def genFullReq : Request :=
  match genFull with
  | .ok r _ => r
  | _ => ⟨none⟩

/-- The digest produced by `genFull` (dummy on the non-ok branches). -/
def genFullHash : String :=
  match genFull with
  | .ok _ fh => fh
  | _ => ""

/-! Helper lemmas shared by the claim theorems. -/

lemma item_concat_eq_some {it : DataItem} {s : String} (h : item_concat it = some s) :
    s = it.dataHash.getD "" ++ it.data.getD "" ++
      it.encryptedDataEncryptionKey.getD "" ++ it.iv.getD "" := by
  cases hd : it.data with
  | none => simp [item_concat, hd] at h
  | some d =>
    cases he : it.encryptedDataEncryptionKey with
    | none => simp [item_concat, hd, he] at h
    | some e =>
      cases hi : it.iv with
      | none => simp [item_concat, hd, he, hi] at h
      | some iv =>
        simp only [item_concat, hd, he, hi, Option.bind_eq_bind, Option.some_bind,
          Option.pure_def, Option.some.injEq] at h
        simp [← h, hd, he, hi]

lemma item_concat_isSome {it : DataItem} (hd : it.data.isSome)
    (he : it.encryptedDataEncryptionKey.isSome) (hi : it.iv.isSome) :
    item_concat it = some (it.dataHash.getD "" ++ it.data.getD "" ++
      it.encryptedDataEncryptionKey.getD "" ++ it.iv.getD "") := by
  obtain ⟨d, hd⟩ := Option.isSome_iff_exists.mp hd
  obtain ⟨e, he⟩ := Option.isSome_iff_exists.mp he
  obtain ⟨iv, hi⟩ := Option.isSome_iff_exists.mp hi
  simp [item_concat, hd, he, hi]

lemma calculate_datahash_eq_spec {C : CryptoP} :
    ∀ {items : List DataItem} {s : String},
      calculate_datahash C items = some s → s = spec_item_hash C items := by
  intro items
  induction items with
  | nil =>
    intro s h
    simp only [calculate_datahash, Option.some.injEq] at h
    simp [← h, spec_item_hash]
  | cons it rest ih =>
    intro s h
    simp only [calculate_datahash, Option.bind_eq_bind, Option.bind_eq_some,
      Option.pure_def, Option.some.injEq] at h
    obtain ⟨c, hc, rs, hrs, hs⟩ := h
    rw [← hs, item_concat_eq_some hc, ih hrs]
    simp [spec_item_hash]

lemma calculate_datahash_isSome {C : CryptoP} {items : List DataItem}
    (h : ∀ it ∈ items, it.data.isSome ∧
      it.encryptedDataEncryptionKey.isSome ∧ it.iv.isSome) :
    calculate_datahash C items = some (spec_item_hash C items) := by
  induction items with
  | nil => simp [calculate_datahash, spec_item_hash]
  | cons it rest ih =>
    obtain ⟨hd, he, hi⟩ := h it (List.mem_cons_self it rest)
    have hrest := ih (fun x hx => h x (List.mem_cons_of_mem it hx))
    simp [calculate_datahash, item_concat_isSome hd he hi, hrest, spec_item_hash]

lemma header_eq_spec {C : CryptoP} {p : Params} {nh h : String}
    (hh : calculate_hash_on_concatenated_string C p nh = some h) :
    h = spec_header_hash C nh (p.workOrderId.getD "") (p.workerId.getD "")
      (p.workloadId.getD "") (p.requesterId.getD "") := by
  cases hwo : p.workOrderId with
  | none => simp [calculate_hash_on_concatenated_string, hwo] at hh
  | some wo =>
    cases hwk : p.workerId with
    | none => simp [calculate_hash_on_concatenated_string, hwo, hwk] at hh
    | some wk =>
      cases hrq : p.requesterId with
      | none => simp [calculate_hash_on_concatenated_string, hwo, hwk, hrq] at hh
      | some rq =>
        simp only [calculate_hash_on_concatenated_string, hwo, hwk, hrq,
          Option.bind_eq_bind, Option.some_bind, Option.pure_def,
          Option.some.injEq] at hh
        simp [← hh, spec_header_hash, hwo, hwk, hrq]

lemma header_isSome {C : CryptoP} {p : Params} {nh : String}
    (hwo : p.workOrderId.isSome) (hwk : p.workerId.isSome) (hrq : p.requesterId.isSome) :
    calculate_hash_on_concatenated_string C p nh =
      some (spec_header_hash C nh (p.workOrderId.getD "") (p.workerId.getD "")
        (p.workloadId.getD "") (p.requesterId.getD "")) := by
  obtain ⟨wo, hwo⟩ := Option.isSome_iff_exists.mp hwo
  obtain ⟨wk, hwk⟩ := Option.isSome_iff_exists.mp hwk
  obtain ⟨rq, hrq⟩ := Option.isSome_iff_exists.mp hrq
  simp [calculate_hash_on_concatenated_string, spec_header_hash, hwo, hwk, hrq]

lemma sortByIndex_eq_some {items : List DataItem}
    (h : ∀ it ∈ items, it.index.isSome) :
    sortByIndex items = some (List.insertionSort idxLe items) := by
  simp only [sortByIndex, List.all_eq_true]
  rw [if_pos]
  intro it hit
  exact h it hit

lemma sortByIndex_some_imp {items s : List DataItem} (h : sortByIndex items = some s) :
    s = List.insertionSort idxLe items ∧ s.Perm items := by
  simp only [sortByIndex] at h
  split at h
  · obtain rfl := Option.some.injEq _ _ ▸ h
    exact ⟨(Option.some.injEq _ _).mp h ▸ rfl, by
      rw [← (Option.some.injEq _ _).mp h]
      exact List.perm_insertionSort idxLe items⟩
  · exact absurd h (by simp)

lemma encrypt_item_eq_some {C : CryptoP} {sk siv dk div : String} {it : DataItem}
    {d e_key : String} (hd : it.data = some d)
    (he : it.encryptedDataEncryptionKey = some e_key) :
    encrypt_item C sk siv dk div it =
      some { it with data := some (
        if e_key = "" ∨ e_key = "null" then C.b64 (C.encrypt d sk siv)
        else if e_key = "-" then C.b64 d
        else C.b64 (C.encrypt d dk div)) } := by
  simp only [encrypt_item, hd, he]
  split_ifs <;> rfl

lemma encrypt_item_fields {C : CryptoP} {sk siv dk div : String} {it r : DataItem}
    (h : encrypt_item C sk siv dk div it = some r) :
    r.index = it.index ∧ r.dataHash = it.dataHash ∧
      r.encryptedDataEncryptionKey = it.encryptedDataEncryptionKey ∧
      r.iv = it.iv ∧ ∃ s, r.data = some (C.b64 s) := by
  cases hd : it.data with
  | none => simp [encrypt_item, hd] at h
  | some d =>
    cases he : it.encryptedDataEncryptionKey with
    | none => simp [encrypt_item, hd, he] at h
    | some e_key =>
      rw [encrypt_item_eq_some hd he, Option.some.injEq] at h
      subst h
      refine ⟨rfl, rfl, ?_, rfl, ?_⟩
      · exact he
      · split_ifs <;> exact ⟨_, rfl⟩

lemma encrypt_items_isSome {C : CryptoP} {sk siv dk div : String} :
    ∀ {items : List DataItem},
      (∀ it ∈ items, it.data.isSome ∧ it.encryptedDataEncryptionKey.isSome ∧ it.iv.isSome) →
      ∃ enc, encrypt_items C sk siv dk div items = some enc ∧
        ∀ r ∈ enc, r.data.isSome ∧ r.encryptedDataEncryptionKey.isSome ∧ r.iv.isSome := by
  intro items
  induction items with
  | nil => exact fun _ => ⟨[], rfl, by simp⟩
  | cons it rest ih =>
    intro h
    obtain ⟨hd, he, hi⟩ := h it (List.mem_cons_self it rest)
    obtain ⟨d, hd⟩ := Option.isSome_iff_exists.mp hd
    obtain ⟨e_key, he⟩ := Option.isSome_iff_exists.mp he
    obtain ⟨enc, henc, hfields⟩ := ih (fun x hx => h x (List.mem_cons_of_mem it hx))
    have hitem := @encrypt_item_eq_some C sk siv dk div it d e_key hd he
    refine ⟨{ it with data := some (
        if e_key = "" ∨ e_key = "null" then C.b64 (C.encrypt d sk siv)
        else if e_key = "-" then C.b64 d
        else C.b64 (C.encrypt d dk div)) } :: enc, ?_, ?_⟩
    · simp [encrypt_items, hitem, henc]
    · intro r hr
      rcases List.mem_cons.mp hr with hr | hr
      · subst hr
        simp [he, hi]
      · exact hfields r hr

lemma itemOk_iff {it : DataItem} :
    itemOk it = true ↔ (it.data.isSome ∧ it.data.getD "" ≠ "" ∧ it.index.isSome) := by
  simp [itemOk, and_assoc]

lemma payload_check_iff {req : Request} {p : Params} (hp : req.params = some p) :
    (payload_json_check req).1 = true ↔
      ((∀ n ∈ param_pool, paramPresent p n = true) ∧
       ∀ it ∈ p.inData.getD [], itemOk it = true) := by
  simp only [payload_json_check, hp]
  by_cases hm : (param_pool.filter (fun n => !(paramPresent p n))).isEmpty
  · have hall : ∀ n ∈ param_pool, paramPresent p n = true := by
      intro n hn
      by_contra hnp
      have hmem : n ∈ param_pool.filter (fun n => !(paramPresent p n)) :=
        List.mem_filter.mpr ⟨hn, by simpa using hnp⟩
      rw [List.isEmpty_iff.mp hm] at hmem
      simp at hmem
    simp only [hm, if_true]
    constructor
    · intro hbad
      refine ⟨hall, ?_⟩
      intro it hit
      by_contra hbadit
      have : it ∈ (p.inData.getD []).filter (fun it => !(itemOk it)) :=
        List.mem_filter.mpr ⟨hit, by simp [hbadit]⟩
      rw [List.isEmpty_iff.mp hbad] at this
      simp at this
    · intro ⟨_, hitems⟩
      apply List.isEmpty_iff.mpr
      apply List.filter_eq_nil_iff.mpr
      intro it hit
      simp [hitems it hit]
  · simp only [hm, if_false]
    constructor
    · intro h
      exact absurd h (by simp)
    · intro ⟨hall, _⟩
      exfalso
      apply hm
      apply List.isEmpty_iff.mpr
      apply List.filter_eq_nil_iff.mpr
      intro n hn
      simp [hall n hn]

lemma payload_check_logs {req : Request} {p : Params} (hp : req.params = some p) :
    ∀ n ∈ param_pool, paramPresent p n = false → n ∈ (payload_json_check req).2 := by
  intro n hn hnp
  have hmem : n ∈ param_pool.filter (fun n => !(paramPresent p n)) :=
    List.mem_filter.mpr ⟨hn, by simp [hnp]⟩
  simp only [payload_json_check, hp]
  by_cases hm : (param_pool.filter (fun n => !(paramPresent p n))).isEmpty
  · rw [List.isEmpty_iff.mp hm] at hmem
    simp at hmem
  · simp only [hm, if_false]
    exact hmem

lemma eq_of_perm_of_sorted_idx :
    ∀ {l₁ l₂ : List DataItem}, l₁.Perm l₂ → l₁.Sorted idxLe → l₂.Sorted idxLe →
      (indicesOf l₁).Nodup → l₁ = l₂ := by
  intro l₁
  induction l₁ with
  | nil =>
    intro l₂ hp _ _ _
    exact hp.symm.eq_nil.symm
  | cons a t₁ ih =>
    intro l₂ hp hs₁ hs₂ hnd
    cases l₂ with
    | nil => exact absurd hp.eq_nil (by simp)
    | cons b t₂ =>
      have hndc : a.index.getD 0 ∉ List.map (fun it => it.index.getD 0) t₁ ∧
          (List.map (fun it => it.index.getD 0) t₁).Nodup := by
        apply List.nodup_cons.mp
        simpa only [indicesOf, List.map_cons] using hnd
      have hab : a = b := by
        by_contra hne
        have ha : a ∈ t₂ := by
          rcases List.mem_cons.mp (hp.mem_iff.mp (List.mem_cons_self a t₁)) with h | h
          · exact absurd h hne
          · exact h
        have hb : b ∈ t₁ := by
          rcases List.mem_cons.mp (hp.mem_iff.mpr (List.mem_cons_self b t₂)) with h | h
          · exact absurd h.symm hne
          · exact h
        have h₁ : idxLe a b := (List.sorted_cons.mp hs₁).1 b hb
        have h₂ : idxLe b a := (List.sorted_cons.mp hs₂).1 a ha
        have heq : a.index.getD 0 = b.index.getD 0 := le_antisymm h₁ h₂
        have hmem : a.index.getD 0 ∈ List.map (fun it => it.index.getD 0) t₁ := by
          rw [heq]
          exact List.mem_map_of_mem _ hb
        exact hndc.1 hmem
      subst hab
      have htl := ih hp.cons_inv (List.sorted_cons.mp hs₁).2 (List.sorted_cons.mp hs₂).2
        (by simpa only [indicesOf] using hndc.2)
      rw [htl]

lemma sortByIndex_perm_eq {l₁ l₂ : List DataItem} (hp : l₁.Perm l₂)
    (hnd : (indicesOf l₁).Nodup) : sortByIndex l₂ = sortByIndex l₁ := by
  by_cases hall : ∀ it ∈ l₁, it.index.isSome
  · have hall₂ : ∀ it ∈ l₂, it.index.isSome := fun it hit => hall it (hp.mem_iff.mpr hit)
    rw [sortByIndex_eq_some hall, sortByIndex_eq_some hall₂, Option.some.injEq]
    apply eq_of_perm_of_sorted_idx
    · exact (List.perm_insertionSort idxLe l₂).trans
        (hp.symm.trans (List.perm_insertionSort idxLe l₁).symm)
    · exact List.sorted_insertionSort idxLe l₂
    · exact List.sorted_insertionSort idxLe l₁
    · have hmp : (List.insertionSort idxLe l₂).Perm l₁ :=
        (List.perm_insertionSort idxLe l₂).trans hp.symm
      exact ((hmp.map (fun it => it.index.getD 0)).nodup_iff).mpr (by simpa [indicesOf] using hnd)
  · have hall₂ : ¬ ∀ it ∈ l₂, it.index.isSome :=
      fun h => hall (fun it hit => h it (hp.mem_iff.mp hit))
    have e₁ : sortByIndex l₁ = none := by
      simp only [sortByIndex, List.all_eq_true]
      exact if_neg hall
    have e₂ : sortByIndex l₂ = none := by
      simp only [sortByIndex, List.all_eq_true]
      exact if_neg hall₂
    rw [e₁, e₂]

lemma response_digest_eq {C : CryptoP} {p : Params} {nonce : String}
    (hn : p.workerNonce = some nonce)
    (hwo : p.workOrderId.isSome) (hwk : p.workerId.isSome) (hrq : p.requesterId.isSome)
    {outs : List DataItem} (houts : p.outData = some outs)
    (hitems : ∀ it ∈ outs, it.index.isSome ∧ it.data.isSome ∧
      it.encryptedDataEncryptionKey.isSome ∧ it.iv.isSome) :
    response_digest C p = some (C.hash (
      spec_header_hash C nonce (p.workOrderId.getD "") (p.workerId.getD "")
        (p.workloadId.getD "") (p.requesterId.getD "") ++
      spec_item_hash C (List.insertionSort idxLe outs))) := by
  have hsort := sortByIndex_eq_some (fun it hit => (hitems it hit).1)
  have hperm : (List.insertionSort idxLe outs).Perm outs := List.perm_insertionSort _ _
  have hdh := @calculate_datahash_isSome C (List.insertionSort idxLe outs)
    (fun it hit =>
      have h := hitems it (hperm.mem_iff.mp hit)
      ⟨h.2.1, h.2.2.1, h.2.2.2⟩)
  simp [response_digest, hn, @header_isSome C p nonce hwo hwk hrq,
    houts, hsort, hdh]

lemma response_digest_isSome {C : CryptoP} {p : Params} (h : result_fields_ok p) :
    ∃ d, response_digest C p = some d := by
  obtain ⟨hn, _, hwo, hwk, hrq, outs, houts, hitems⟩ := h
  obtain ⟨nonce, hn⟩ := Option.isSome_iff_exists.mp hn
  exact ⟨_, response_digest_eq hn hwo hwk hrq houts hitems⟩

lemma payload_check_true_params {req : Request} (h : (payload_json_check req).1 = true) :
    ∃ p, req.params = some p := by
  cases hp : req.params with
  | none =>
    rw [payload_json_check, hp] at h
    simp at h
  | some p => exact ⟨p, rfl⟩

lemma sign_core_digest {C : CryptoP} {p0 p4 : Params} {fh : String}
    {signMsg : String → String} {pk sk siv esk nonce dk div : String}
    (h : sign_core C p0 signMsg pk sk siv esk nonce dk div = some (p4, fh)) :
    fh = C.hash (
      spec_header_hash C (C.b64 (C.hash nonce)) (p4.workOrderId.getD "")
        (p4.workerId.getD "") (p4.workloadId.getD "") (p4.requesterId.getD "") ++
      spec_item_hash C (p4.inData.getD []) ++
      spec_item_hash C (p4.outData.getD [])) := by
  simp only [sign_core, Option.bind_eq_bind, Option.bind_eq_some, Option.pure_def,
    Option.some.injEq] at h
  obtain ⟨p2, henc, hs1v, hh1, hs2v, hh2, st3, hst3, hfinal⟩ := h
  rw [Prod.mk.injEq] at hfinal
  obtain ⟨hp4, hfh⟩ := hfinal
  subst hp4
  subst hfh
  have e1 := header_eq_spec hh1
  have e2 := calculate_datahash_eq_spec hh2
  cases hout : p2.outData with
  | none =>
    rw [hout] at hst3
    simp only [Option.some.injEq] at hst3
    subst hst3
    simp only
    rw [e1, e2, hout]
    simp [spec_item_hash]
  | some outs =>
    rw [hout] at hst3
    simp only [Option.bind_eq_bind, Option.bind_eq_some, Option.some.injEq] at hst3
    obtain ⟨souts, hsouts, h3v, hh3, hst3⟩ := hst3
    subst hst3
    simp only
    rw [e1, e2, calculate_datahash_eq_spec hh3]
    simp

lemma sign_core_isSome {C : CryptoP} {p0 : Params}
    {signMsg : String → String} {pk sk siv esk nonce dk div : String}
    {items : List DataItem}
    (hin : p0.inData = some items)
    (hitems : ∀ it ∈ items, it.data.isSome ∧ it.index.isSome ∧
      it.encryptedDataEncryptionKey.isSome ∧ it.iv.isSome)
    (hwo : p0.workOrderId.isSome) (hwk : p0.workerId.isSome) (hrq : p0.requesterId.isSome)
    (hout : ∀ outs, p0.outData = some outs → ∀ it ∈ outs,
      it.index.isSome ∧ it.data.isSome ∧
        it.encryptedDataEncryptionKey.isSome ∧ it.iv.isSome) :
    ∃ r, sign_core C p0 signMsg pk sk siv esk nonce dk div = some r := by
  obtain ⟨wo, hwo⟩ := Option.isSome_iff_exists.mp hwo
  obtain ⟨wk, hwk⟩ := Option.isSome_iff_exists.mp hwk
  obtain ⟨rq, hrq⟩ := Option.isSome_iff_exists.mp hrq
  have hall : ∀ it ∈ items, it.index.isSome := fun it h => (hitems it h).2.1
  have hsort := sortByIndex_eq_some hall
  have hperm : (List.insertionSort idxLe items).Perm items := List.perm_insertionSort _ _
  have hsortedf : ∀ it ∈ List.insertionSort idxLe items, it.data.isSome ∧
      it.encryptedDataEncryptionKey.isSome ∧ it.iv.isSome := fun it h =>
    have hx := hitems it (hperm.mem_iff.mp h)
    ⟨hx.1, hx.2.2.1, hx.2.2.2⟩
  obtain ⟨enc, hencs, hencf⟩ :=
    @encrypt_items_isSome C sk siv dk div (List.insertionSort idxLe items) hsortedf
  rw [← Option.isSome_iff_exists]
  cases houtv : p0.outData with
  | none =>
    simp [sign_core, encrypt_workorder_indata, hin, hsort, hencs,
      calculate_hash_on_concatenated_string, hwo, hwk, hrq,
      calculate_datahash_isSome hencf, houtv]
  | some outs =>
    have houtf := hout outs houtv
    have hsort₂ := sortByIndex_eq_some (fun it h => (houtf it h).1)
    have hperm₂ : (List.insertionSort idxLe outs).Perm outs := List.perm_insertionSort _ _
    have houtsf : ∀ it ∈ List.insertionSort idxLe outs, it.data.isSome ∧
        it.encryptedDataEncryptionKey.isSome ∧ it.iv.isSome := fun it h =>
      have hx := houtf it (hperm₂.mem_iff.mp h)
      ⟨hx.2.1, hx.2.2.1, hx.2.2.2⟩
    simp [sign_core, encrypt_workorder_indata, hin, hsort, hencs,
      calculate_hash_on_concatenated_string, hwo, hwk, hrq,
      calculate_datahash_isSome hencf, houtv, hsort₂,
      calculate_datahash_isSome houtsf]

/-! Claim theorems. -/

/-- Claim C8: for every submitted request payload (with its params object
present), the validator returns true exactly when every name of the
mandatory set `param_pool` is present and every inData item carries a
present non-empty `data` field and a present `index` field, and it logs
each missing mandatory field individually (one log entry per name) rather
than stopping at the first defect.  `payload_json_check` is a total Lean
function, so it returns a boolean without throwing. -/
theorem claim_C8_validator (req : Request) (p : Params) (hp : req.params = some p) :
    ((payload_json_check req).1 = true ↔
      ((∀ n ∈ param_pool, paramPresent p n = true) ∧
       ∀ it ∈ p.inData.getD [],
         it.data.isSome ∧ it.data.getD "" ≠ "" ∧ it.index.isSome)) ∧
    (∀ n ∈ param_pool, paramPresent p n = false → n ∈ (payload_json_check req).2) := by
  refine ⟨?_, payload_check_logs hp⟩
  rw [payload_check_iff hp]
  constructor
  · rintro ⟨h1, h2⟩
    exact ⟨h1, fun it hit => itemOk_iff.mp (h2 it hit)⟩
  · rintro ⟨h1, h2⟩
    exact ⟨h1, fun it hit => itemOk_iff.mpr (h2 it hit)⟩

/-- Witness for claim C8 at a request missing `requesterNonce` and
`inData`. -/
theorem claim_C8_validator_witness :
    (((payload_json_check reqC8w).1 = true ↔
      ((∀ n ∈ param_pool, paramPresent pC8w n = true) ∧
       ∀ it ∈ pC8w.inData.getD [],
         it.data.isSome ∧ it.data.getD "" ≠ "" ∧ it.index.isSome)) ∧
    (∀ n ∈ param_pool, paramPresent pC8w n = false → n ∈ (payload_json_check reqC8w).2)) :=
  claim_C8_validator reqC8w pC8w rfl

/-- Claim C5: when the algorithms match the local configuration, a
response carrying an `error` field, or a present negative `result.code`,
makes `verify_signature` return `ERROR_RESPONSE`; the conclusion holds for
every key parser and every signature primitive, so no signature check is
consulted on these paths. -/
theorem claim_C5_error_paths (C : CryptoP) (tha tsa : String)
    (keyParse : String → Option Unit) (verifyPrim : String → String → String → Int)
    (resp : Response) (w : WorkerDetails)
    (hh : tha = w.hashing_algorithm) (hs : tsa = w.signing_algorithm)
    (herr : resp.error.isSome ∨ ∃ p, resp.result = some p ∧ code_is_error p = true) :
    verify_signature C tha tsa keyParse verifyPrim resp w =
      some SignatureStatus.ERROR_RESPONSE := by
  subst hh
  subst hs
  rcases herr with he | ⟨p, hres, hcode⟩
  · simp [verify_signature, he]
  · by_cases he : resp.error.isSome
    · simp [verify_signature, he]
    · simp [verify_signature, he, hres, hcode]

/-- Witness for claim C5 at a response carrying an `error` field, with
well-formed primitives supplied. -/
theorem claim_C5_error_paths_witness :
    verify_signature C0 "SHA-256" "SECP256K1" kp0 vp0 respErr w0 =
      some SignatureStatus.ERROR_RESPONSE :=
  claim_C5_error_paths C0 "SHA-256" "SECP256K1" kp0 vp0 respErr w0 rfl rfl
    (Or.inl (by decide))

/-- Counterexample to claim C3 as stated: an inData item whose
`encryptedDataEncryptionKey` field is absent is not encrypted under the
session key; the encryptor raises `KeyError` (modelled as `none`), so no
item with a base64 `data` field is produced. -/
theorem claim_C3_counterexample :
    itemC3.encryptedDataEncryptionKey = none ∧
    encrypt_item C0 "sk" "siv" "dk" "div" itemC3 = none :=
  ⟨rfl, rfl⟩

/-- Claim C3 as amended: for every inData item whose `data` and
`encryptedDataEncryptionKey` fields are present, the empty string or the
literal string `"null"` selects session-key encryption, the literal
`"-"` skips encryption and only base64-encodes, any other value selects
the data key, and the resulting `data` field always holds a base64-encoded
byte string.  (When `encryptedDataEncryptionKey` or `data` is absent the
encryptor raises instead of applying a default, per the
counterexample.) -/
theorem claim_C3_amended (C : CryptoP) (sk siv dk div : String) (it : DataItem)
    (d e_key : String) (hd : it.data = some d)
    (he : it.encryptedDataEncryptionKey = some e_key) :
    encrypt_item C sk siv dk div it =
      some { it with data := some (
        if e_key = "" ∨ e_key = "null" then C.b64 (C.encrypt d sk siv)
        else if e_key = "-" then C.b64 d
        else C.b64 (C.encrypt d dk div)) } ∧
    ∃ s, (if e_key = "" ∨ e_key = "null" then C.b64 (C.encrypt d sk siv)
        else if e_key = "-" then C.b64 d
        else C.b64 (C.encrypt d dk div)) = C.b64 s := by
  refine ⟨encrypt_item_eq_some hd he, ?_⟩
  split_ifs <;> exact ⟨_, rfl⟩

/-- Witness for the amended claim C3 at an item carrying the `"-"`
sentinel. -/
theorem claim_C3_amended_witness :
    encrypt_item C0 "sk" "siv" "dk" "div" itemIdx1 =
      some { itemIdx1 with data := some (
        if "-" = "" ∨ "-" = "null" then C0.b64 (C0.encrypt "y" "sk" "siv")
        else if "-" = "-" then C0.b64 "y"
        else C0.b64 (C0.encrypt "y" "dk" "div")) } ∧
    ∃ s, (if "-" = "" ∨ "-" = "null" then C0.b64 (C0.encrypt "y" "sk" "siv")
        else if "-" = "-" then C0.b64 "y"
        else C0.b64 (C0.encrypt "y" "dk" "div")) = C0.b64 s :=
  claim_C3_amended C0 "sk" "siv" "dk" "div" itemIdx1 "y" "-" rfl rfl

/-- Claim C10: a request can pass validation and still crash the signer:
`reqC10` passes `__payload_json_check`, yet `generate_client_signature`
raises `KeyError` (modelled `crashed`) because the encryptor
unconditionally reads `encryptedDataEncryptionKey`; the per-item hash
unconditionally reads `encryptedDataEncryptionKey` and `iv` as well
(`item_concat` fails on items missing either). -/
theorem claim_C10_keyerror :
    (payload_json_check reqC10).1 = true ∧
    generate_client_signature C0 "SHA-256" "SECP256K1" reqC10 w0
      (fun s => "S(" ++ s ++ ")") "pub" "sk" "siv" "esk" "NONCE" "dk" "div" =
        GenResult.crashed ∧
    encrypt_item C0 "sk" "siv" "dk" "div" itemC10 = none ∧
    item_concat itemC10 = none ∧
    item_concat itemC10iv = none :=
  ⟨rfl, rfl, rfl, rfl, rfl⟩

/-- Counterexample to claim C9 as stated: two items that share the same
`index` value can be permuted, and the stable sort then preserves their
relative order, so the item hash of the sorted permutation differs from
the item hash of the sorted original. -/
theorem claim_C9_counterexample :
    List.Perm [itemFull2, itemFull] [itemFull, itemFull2] ∧
    sorted_datahash C0 [itemFull2, itemFull] ≠ sorted_datahash C0 [itemFull, itemFull2] :=
  ⟨List.Perm.swap itemFull itemFull2 [], by decide⟩

/-- Claim C9 as amended: when the index values of the items are pairwise
distinct, sorting any permutation of the list by index and computing the
item hash yields the same digest string as sorting the original list. -/
theorem claim_C9_amended (C : CryptoP) (l₁ l₂ : List DataItem) (hp : List.Perm l₁ l₂)
    (hnd : (indicesOf l₁).Nodup) :
    sorted_datahash C l₂ = sorted_datahash C l₁ := by
  unfold sorted_datahash
  rw [sortByIndex_perm_eq hp hnd]

/-- Witness for the amended claim C9 at a two-element list with distinct
indices. -/
theorem claim_C9_amended_witness :
    sorted_datahash C0 [itemIdx1, itemFull] = sorted_datahash C0 [itemFull, itemIdx1] :=
  claim_C9_amended C0 [itemFull, itemIdx1] [itemIdx1, itemFull]
    (List.Perm.swap itemIdx1 itemFull []) (by decide)

/-- Counterexample to claim C6 as stated: a response with matching
algorithms but neither an `error` key nor a `result` key makes
`verify_signature` raise `KeyError` (modelled as `none`), so the verifier
is not total and does not always return a `SignatureStatus`. -/
theorem claim_C6_counterexample :
    respC6.error = none ∧ respC6.result = none ∧
    verify_signature C0 "SHA-256" "SECP256K1" kp0 vp0 respC6 w0 = none :=
  ⟨rfl, rfl, rfl⟩

/-- Claim C6 as amended: whenever the algorithms mismatch, or the response
carries an `error` field, or it carries a `result` object that either
reports a negative code or carries all the fields the verifier reads
(well formed), `verify_signature` returns exactly one value of the closed
five-element `SignatureStatus` enumeration, for every key parser and
signature primitive. -/
theorem claim_C6_amended (C : CryptoP) (tha tsa : String)
    (keyParse : String → Option Unit) (verifyPrim : String → String → String → Int)
    (resp : Response) (w : WorkerDetails)
    (h : tha ≠ w.hashing_algorithm ∨ tsa ≠ w.signing_algorithm ∨ resp.error.isSome ∨
      ∃ p, resp.result = some p ∧ (code_is_error p = true ∨ result_fields_ok p)) :
    ∃ s, verify_signature C tha tsa keyParse verifyPrim resp w = some s := by
  by_cases hha : tha ≠ w.hashing_algorithm
  · exact ⟨SignatureStatus.ERROR_RESPONSE, by simp [verify_signature, hha]⟩
  by_cases hsa : tsa ≠ w.signing_algorithm
  · exact ⟨SignatureStatus.ERROR_RESPONSE, by simp [verify_signature, hha, hsa]⟩
  by_cases herr : resp.error.isSome
  · exact ⟨SignatureStatus.ERROR_RESPONSE, by simp [verify_signature, hha, hsa, herr]⟩
  rcases h with h | h | h | ⟨p, hres, hp⟩
  · exact absurd h hha
  · exact absurd h hsa
  · exact absurd h herr
  by_cases hcode : code_is_error p
  · exact ⟨SignatureStatus.ERROR_RESPONSE,
      by simp [verify_signature, hha, hsa, herr, hres, hcode]⟩
  rcases hp with hp | hwf
  · exact absurd hp (by simpa using hcode)
  obtain ⟨d, hd⟩ := response_digest_isSome (C := C) hwf
  obtain ⟨sig, hsig⟩ := Option.isSome_iff_exists.mp hwf.2.1
  cases hkp : keyParse w.worker_typedata_verification_key with
  | none =>
    exact ⟨SignatureStatus.INVALID_VERIFICATION_KEY,
      by simp [verify_signature, hha, hsa, herr, hres, hcode, hsig, hd, hkp]⟩
  | some k =>
    have hv : verify_signature C tha tsa keyParse verifyPrim resp w =
        (if verifyPrim w.worker_typedata_verification_key d sig = 1 then
          some SignatureStatus.PASSED
        else if verifyPrim w.worker_typedata_verification_key d sig = 0 then
          some SignatureStatus.FAILED
        else some SignatureStatus.INVALID_SIGNATURE_FORMAT) := by
      simp [verify_signature, hha, hsa, herr, hres, hcode, hsig, hd, hkp]
    rw [hv]
    split_ifs <;> exact ⟨_, rfl⟩

/-- Witness for the amended claim C6 at a fully well-formed response. -/
theorem claim_C6_amended_witness :
    ∃ s, verify_signature C0 "SHA-256" "SECP256K1" kp0 vp0 respFull w0 = some s :=
  claim_C6_amended C0 "SHA-256" "SECP256K1" kp0 vp0 respFull w0
    (Or.inr (Or.inr (Or.inr ⟨pRespFull, rfl,
      Or.inr ⟨by decide, by decide, by decide, by decide, by decide,
        [itemFull], rfl, by decide⟩⟩)))

/-- Claim C7: past the error checks, a failing key construction makes the
verifier return `INVALID_VERIFICATION_KEY` (never `FAILED`) for every
signature primitive, so the primitive is only consulted when key
construction succeeds; when it succeeds, the primitive outcome 1 maps to
`PASSED`, 0 to `FAILED`, and any other integer to
`INVALID_SIGNATURE_FORMAT`, applied to the recomputed digest and the
response signature. -/
theorem claim_C7_key_and_primitive (C : CryptoP) (tha tsa : String)
    (keyParse : String → Option Unit) (verifyPrim : String → String → String → Int)
    (resp : Response) (w : WorkerDetails) (p : Params) (sig : String)
    (hh : tha = w.hashing_algorithm) (hs : tsa = w.signing_algorithm)
    (herr : resp.error = none) (hres : resp.result = some p)
    (hcode : code_is_error p = false) (hsig : p.workerSignature = some sig)
    (hwf : result_fields_ok p) :
    ∃ d, response_digest C p = some d ∧
      (keyParse w.worker_typedata_verification_key = none →
        verify_signature C tha tsa keyParse verifyPrim resp w =
          some SignatureStatus.INVALID_VERIFICATION_KEY) ∧
      (∀ k, keyParse w.worker_typedata_verification_key = some k →
        verify_signature C tha tsa keyParse verifyPrim resp w = some (
          if verifyPrim w.worker_typedata_verification_key d sig = 1 then
            SignatureStatus.PASSED
          else if verifyPrim w.worker_typedata_verification_key d sig = 0 then
            SignatureStatus.FAILED
          else SignatureStatus.INVALID_SIGNATURE_FORMAT)) := by
  subst hh
  subst hs
  obtain ⟨d, hd⟩ := response_digest_isSome (C := C) hwf
  refine ⟨d, hd, ?_, ?_⟩
  · intro hkp
    simp [verify_signature, herr, hres, hcode, hsig, hd, hkp]
  · intro k hkp
    simp only [verify_signature, ne_eq, not_true_eq_false, if_false, herr,
      Option.isSome_none, hres, hcode, Bool.false_eq_true, hsig, hd, hkp,
      Option.bind_eq_bind, Option.some_bind, Option.pure_def]
    split_ifs <;> rfl

/-- Witness for claim C7 at a fully well-formed response with an accepting
key parser. -/
theorem claim_C7_key_and_primitive_witness :
    ∃ d, response_digest C0 pRespFull = some d ∧
      (kp0 w0.worker_typedata_verification_key = none →
        verify_signature C0 "SHA-256" "SECP256K1" kp0 vp0 respFull w0 =
          some SignatureStatus.INVALID_VERIFICATION_KEY) ∧
      (∀ k, kp0 w0.worker_typedata_verification_key = some k →
        verify_signature C0 "SHA-256" "SECP256K1" kp0 vp0 respFull w0 = some (
          if vp0 w0.worker_typedata_verification_key d "WS" = 1 then
            SignatureStatus.PASSED
          else if vp0 w0.worker_typedata_verification_key d "WS" = 0 then
            SignatureStatus.FAILED
          else SignatureStatus.INVALID_SIGNATURE_FORMAT)) :=
  claim_C7_key_and_primitive C0 "SHA-256" "SECP256K1" kp0 vp0 respFull w0 pRespFull "WS"
    rfl rfl rfl rfl rfl rfl
    ⟨by decide, by decide, by decide, by decide, by decide, [itemFull], rfl, by decide⟩

/-- Claim C2: for every response result object whose fields are present,
the digest recomputed by `verify_signature` (the `response_digest` it
checks the signature against) is the hash of the header hash concatenated
with the item hash of `outData` sorted by index, and the header hash takes
the raw `workerNonce` string directly as its nonce-digest input, without
re-hashing it (the request path of claim C1 instead feeds
`b64(hash(nonce))` into the header hash). -/
theorem claim_C2_response_digest (C : CryptoP) (p : Params) (nonce : String)
    (outs : List DataItem)
    (hn : p.workerNonce = some nonce)
    (hwo : p.workOrderId.isSome) (hwk : p.workerId.isSome) (hrq : p.requesterId.isSome)
    (houts : p.outData = some outs)
    (hitems : ∀ it ∈ outs, it.index.isSome ∧ it.data.isSome ∧
      it.encryptedDataEncryptionKey.isSome ∧ it.iv.isSome) :
    response_digest C p = some (C.hash (
      spec_header_hash C nonce (p.workOrderId.getD "") (p.workerId.getD "")
        (p.workloadId.getD "") (p.requesterId.getD "") ++
      spec_item_hash C (List.insertionSort idxLe outs))) :=
  response_digest_eq hn hwo hwk hrq houts hitems

/-- Witness for claim C2 at the well-formed response result object. -/
theorem claim_C2_response_digest_witness :
    response_digest C0 pRespFull = some (C0.hash (
      spec_header_hash C0 "WN" (pRespFull.workOrderId.getD "")
        (pRespFull.workerId.getD "") (pRespFull.workloadId.getD "")
        (pRespFull.requesterId.getD "") ++
      spec_item_hash C0 (List.insertionSort idxLe [itemFull]))) :=
  claim_C2_response_digest C0 pRespFull "WN" [itemFull] rfl (by decide) (by decide)
    (by decide) rfl (by decide)

/-- Claim C1: whenever `generate_client_signature` returns a signed
request, the digest it signed equals the hash of the header hash (fed the
base64 of the hash of the fresh nonce) concatenated with the item hash of
the encrypted `inData` and the item hash of the sorted `outData` (the
empty string when `outData` is absent), where the item hash is the
concatenation of the per-item base64 digests of
`dataHash + data + encryptedDataEncryptionKey + iv`, each item hashed
separately. -/
theorem claim_C1_request_digest (C : CryptoP) (tha tsa : String) (req : Request)
    (w : WorkerDetails) (signMsg : String → String)
    (pk sk siv esk nonce dk div : String) (r : Request) (fh : String)
    (h : generate_client_signature C tha tsa req w signMsg pk sk siv esk nonce dk div =
      GenResult.ok r fh) :
    ∃ p4, r.params = some p4 ∧ fh = C.hash (
      spec_header_hash C (C.b64 (C.hash nonce)) (p4.workOrderId.getD "")
        (p4.workerId.getD "") (p4.workloadId.getD "") (p4.requesterId.getD "") ++
      spec_item_hash C (p4.inData.getD []) ++
      spec_item_hash C (p4.outData.getD [])) := by
  simp only [generate_client_signature] at h
  split at h
  · exact absurd h (by simp)
  split at h
  · exact absurd h (by simp)
  split at h
  · exact absurd h (by simp)
  split at h
  · exact absurd h (by simp)
  split at h
  · exact absurd h (by simp)
  next p4 fh2 hsc =>
    cases h
    exact ⟨p4, rfl, sign_core_digest hsc⟩

/-- Witness for claim C1 at a concrete successful signing run. -/
theorem claim_C1_request_digest_witness :
    ∃ p4, genFullReq.params = some p4 ∧ genFullHash = C0.hash (
      spec_header_hash C0 (C0.b64 (C0.hash "NONCE")) (p4.workOrderId.getD "")
        (p4.workerId.getD "") (p4.workloadId.getD "") (p4.requesterId.getD "") ++
      spec_item_hash C0 (p4.inData.getD []) ++
      spec_item_hash C0 (p4.outData.getD [])) :=
  claim_C1_request_digest C0 "SHA-256" "SECP256K1" reqFull w0
    (fun s => "S(" ++ s ++ ")") "pub" "sk" "siv" "esk" "NONCE" "dk" "div"
    genFullReq genFullHash rfl

/-- Counterexample to claim C4 as stated: `reqC4` passes validation and
both algorithms match the worker descriptor, yet
`generate_client_signature` does not return a signed serialized request:
it raises `KeyError` (modelled `crashed`) because the single inData item
lacks `encryptedDataEncryptionKey`. -/
theorem claim_C4_counterexample :
    (payload_json_check reqC4).1 = true ∧
    "SHA-256" = w0.hashing_algorithm ∧ "SECP256K1" = w0.signing_algorithm ∧
    generate_client_signature C0 "SHA-256" "SECP256K1" reqC4 w0
      (fun s => "S(" ++ s ++ ")") "pub" "sk" "siv" "esk" "NONCE" "dk" "div" =
        GenResult.crashed :=
  ⟨rfl, rfl, rfl, rfl⟩

/-- Claim C4 as amended: `generate_client_signature` returns null exactly
when payload validation fails or an algorithm mismatches, with a distinct
log message per abort cause and no partial payload; when validation
passes, both algorithms match, and every inData item additionally carries
`encryptedDataEncryptionKey` and `iv` (and the outData items, when
present, carry all read fields), it returns the signed serialized
request.  (Without the additional field presence it may instead raise, per
the counterexample.) -/
theorem claim_C4_amended (C : CryptoP) (tha tsa : String) (req : Request)
    (w : WorkerDetails) (signMsg : String → String)
    (pk sk siv esk nonce dk div : String) :
    (generate_client_signature C tha tsa req w signMsg pk sk siv esk nonce dk div =
        GenResult.nullRes msg_validation_failed ↔
      (payload_json_check req).1 = false) ∧
    (generate_client_signature C tha tsa req w signMsg pk sk siv esk nonce dk div =
        GenResult.nullRes msg_bad_hashing_algorithm ↔
      ((payload_json_check req).1 = true ∧ tha ≠ w.hashing_algorithm)) ∧
    (generate_client_signature C tha tsa req w signMsg pk sk siv esk nonce dk div =
        GenResult.nullRes msg_bad_signing_algorithm ↔
      ((payload_json_check req).1 = true ∧ tha = w.hashing_algorithm ∧
        tsa ≠ w.signing_algorithm)) ∧
    (∀ m, generate_client_signature C tha tsa req w signMsg pk sk siv esk nonce dk div =
        GenResult.nullRes m →
      m = msg_validation_failed ∨ m = msg_bad_hashing_algorithm ∨
        m = msg_bad_signing_algorithm) ∧
    ((payload_json_check req).1 = true → tha = w.hashing_algorithm →
      tsa = w.signing_algorithm →
      (∀ p, req.params = some p → extra_fields_ok p) →
      ∃ r fh, generate_client_signature C tha tsa req w signMsg pk sk siv esk nonce dk div
        = GenResult.ok r fh) := by
  have m12 : msg_validation_failed ≠ msg_bad_hashing_algorithm := by decide
  have m13 : msg_validation_failed ≠ msg_bad_signing_algorithm := by decide
  have m23 : msg_bad_hashing_algorithm ≠ msg_bad_signing_algorithm := by decide
  by_cases h1 : (payload_json_check req).1 = false
  · have E : generate_client_signature C tha tsa req w signMsg pk sk siv esk nonce dk div =
        GenResult.nullRes msg_validation_failed := by
      simp [generate_client_signature, h1]
    refine ⟨?_, ?_, ?_, ?_, ?_⟩
    · simp [E, h1]
    · rw [E]
      exact iff_of_false (fun hx => m12 (GenResult.nullRes.inj hx))
        (fun hx => by rw [h1] at hx; exact absurd hx.1 (by simp))
    · rw [E]
      exact iff_of_false (fun hx => m13 (GenResult.nullRes.inj hx))
        (fun hx => by rw [h1] at hx; exact absurd hx.1 (by simp))
    · intro m hm
      rw [E] at hm
      exact Or.inl (GenResult.nullRes.inj hm).symm
    · intro hc _ _ _
      rw [h1] at hc
      exact absurd hc (by simp)
  have h1t : (payload_json_check req).1 = true := by
    cases hb : (payload_json_check req).1
    · exact absurd hb h1
    · rfl
  by_cases h2 : tha = w.hashing_algorithm
  · by_cases h3 : tsa = w.signing_algorithm
    · -- all checks pass: the generator never returns null
      subst h2
      subst h3
      obtain ⟨p, hp⟩ := payload_check_true_params h1t
      have EA : generate_client_signature C w.hashing_algorithm w.signing_algorithm req w
          signMsg pk sk siv esk nonce dk div =
          (match sign_core C p signMsg pk sk siv esk nonce dk div with
            | none => GenResult.crashed
            | some (p4, final_hash) => GenResult.ok ⟨some p4⟩ final_hash) := by
        simp [generate_client_signature, h1t, hp]
      cases hscv : sign_core C p signMsg pk sk siv esk nonce dk div with
      | none =>
        have E : generate_client_signature C w.hashing_algorithm w.signing_algorithm req w
            signMsg pk sk siv esk nonce dk div = GenResult.crashed := by
          rw [EA, hscv]
        refine ⟨?_, ?_, ?_, ?_, ?_⟩
        · simp [E, h1t]
        · simp [E]
        · simp [E]
        · intro m hm
          rw [E] at hm
          exact absurd hm (by simp)
        · intro _ _ _ hxf
          obtain ⟨items, hin⟩ := Option.isSome_iff_exists.mp (by
            have := (payload_check_iff hp).mp h1t
            have h5 := this.1 "inData" (by simp [param_pool])
            simpa [paramPresent] using h5)
          have hgd : p.inData.getD [] = items := by rw [hin]; rfl
          have hiff := (payload_check_iff hp).mp h1t
          have hex := hxf p hp
          have hitems : ∀ it ∈ items, it.data.isSome ∧ it.index.isSome ∧
              it.encryptedDataEncryptionKey.isSome ∧ it.iv.isSome := by
            intro it hit
            have hok := itemOk_iff.mp (hiff.2 it (by rw [hgd]; exact hit))
            have hx2 := hex.1 it (by rw [hgd]; exact hit)
            exact ⟨hok.1, hok.2.2, hx2.1, hx2.2⟩
          have hwo : p.workOrderId.isSome := by
            have h5 := hiff.1 "workOrderId" (by simp [param_pool])
            simpa [paramPresent] using h5
          have hwk : p.workerId.isSome := by
            have h5 := hiff.1 "workerId" (by simp [param_pool])
            simpa [paramPresent] using h5
          have hrq : p.requesterId.isSome := by
            have h5 := hiff.1 "requesterId" (by simp [param_pool])
            simpa [paramPresent] using h5
          obtain ⟨r, hr⟩ := @sign_core_isSome C p signMsg pk sk siv esk nonce dk div
            items hin hitems hwo hwk hrq hex.2
          rw [hr] at hscv
          exact absurd hscv (by simp)
      | some r =>
        obtain ⟨p4, fh⟩ := r
        have E : generate_client_signature C w.hashing_algorithm w.signing_algorithm req w
            signMsg pk sk siv esk nonce dk div = GenResult.ok ⟨some p4⟩ fh := by
          rw [EA, hscv]
        refine ⟨?_, ?_, ?_, ?_, ?_⟩
        · simp [E, h1t]
        · simp [E]
        · simp [E]
        · intro m hm
          rw [E] at hm
          exact absurd hm (by simp)
        · intro _ _ _ _
          exact ⟨⟨some p4⟩, fh, E⟩
    · -- signing-algorithm mismatch
      subst h2
      have E : generate_client_signature C w.hashing_algorithm tsa req w signMsg
          pk sk siv esk nonce dk div = GenResult.nullRes msg_bad_signing_algorithm := by
        simp [generate_client_signature, h1t, h3]
      refine ⟨?_, ?_, ?_, ?_, ?_⟩
      · rw [E]
        exact iff_of_false (fun hx => m13 (GenResult.nullRes.inj hx).symm)
          (fun hx => by rw [h1t] at hx; exact absurd hx (by simp))
      · rw [E]
        exact iff_of_false (fun hx => m23 (GenResult.nullRes.inj hx).symm)
          (fun hx => absurd rfl hx.2)
      · rw [E]
        exact iff_of_true rfl ⟨h1t, rfl, h3⟩
      · intro m hm
        rw [E] at hm
        exact Or.inr (Or.inr (GenResult.nullRes.inj hm).symm)
      · intro _ _ hts _
        exact absurd hts h3
  · -- hashing-algorithm mismatch
    have E : generate_client_signature C tha tsa req w signMsg pk sk siv esk nonce dk div
        = GenResult.nullRes msg_bad_hashing_algorithm := by
      simp [generate_client_signature, h1t, h2]
    refine ⟨?_, ?_, ?_, ?_, ?_⟩
    · rw [E]
      exact iff_of_false (fun hx => m12 (GenResult.nullRes.inj hx).symm)
        (fun hx => by rw [h1t] at hx; exact absurd hx (by simp))
    · rw [E]
      exact iff_of_true rfl ⟨h1t, h2⟩
    · rw [E]
      exact iff_of_false (fun hx => m23 (GenResult.nullRes.inj hx))
        (fun hx => absurd hx.2.1 h2)
    · intro m hm
      rw [E] at hm
      exact Or.inr (Or.inl (GenResult.nullRes.inj hm).symm)
    · intro _ hth _ _
      exact absurd hth h2

/-- Witness for the amended claim C4 at a concrete fully populated
request with matching algorithms. -/
theorem claim_C4_amended_witness :
    (generate_client_signature C0 "SHA-256" "SECP256K1" reqFull w0 sgn0
        "pub" "sk" "siv" "esk" "NONCE" "dk" "div" =
        GenResult.nullRes msg_validation_failed ↔
      (payload_json_check reqFull).1 = false) ∧
    (generate_client_signature C0 "SHA-256" "SECP256K1" reqFull w0 sgn0
        "pub" "sk" "siv" "esk" "NONCE" "dk" "div" =
        GenResult.nullRes msg_bad_hashing_algorithm ↔
      ((payload_json_check reqFull).1 = true ∧ "SHA-256" ≠ w0.hashing_algorithm)) ∧
    (generate_client_signature C0 "SHA-256" "SECP256K1" reqFull w0 sgn0
        "pub" "sk" "siv" "esk" "NONCE" "dk" "div" =
        GenResult.nullRes msg_bad_signing_algorithm ↔
      ((payload_json_check reqFull).1 = true ∧ "SHA-256" = w0.hashing_algorithm ∧
        "SECP256K1" ≠ w0.signing_algorithm)) ∧
    (∀ m, generate_client_signature C0 "SHA-256" "SECP256K1" reqFull w0 sgn0
        "pub" "sk" "siv" "esk" "NONCE" "dk" "div" = GenResult.nullRes m →
      m = msg_validation_failed ∨ m = msg_bad_hashing_algorithm ∨
        m = msg_bad_signing_algorithm) ∧
    ((payload_json_check reqFull).1 = true → "SHA-256" = w0.hashing_algorithm →
      "SECP256K1" = w0.signing_algorithm →
      (∀ p, reqFull.params = some p → extra_fields_ok p) →
      ∃ r fh, generate_client_signature C0 "SHA-256" "SECP256K1" reqFull w0 sgn0
        "pub" "sk" "siv" "esk" "NONCE" "dk" "div" = GenResult.ok r fh) :=
  claim_C4_amended C0 "SHA-256" "SECP256K1" reqFull w0 sgn0
    "pub" "sk" "siv" "esk" "NONCE" "dk" "div"

end TCF
